import Mathlib

/-!
Verification development for the retrieval-and-evaluation core of the
team-agent repository: the chunker
(backend/core/rag/vector_store_example.py), the benchmark harness
(backend/core/rag/benchmark_system.py), the QA agent
(backend/core/agents/qa_agent.py) and the vector store wrapper
(backend/core/rag/vector_store.py).

Python strings are modelled as `List Char`; Python integers as `Int`
(indices entering a slice are normalised with the Python slice rules);
Python floats appearing in the benchmark scoring are modelled exactly
over `ℚ`.  Wall-clock timing is modelled as the constant 0 (no claim
depends on measured time).
-/

/-- Normalise a Python slice index for a sequence of length `n`:
negative indices count from the end (clamped at 0), nonnegative ones
are clamped at `n`. -/
def pyNorm (n : Nat) (i : Int) : Nat :=
  if i < 0 then ((n : Int) + i).toNat else min i.toNat n

/-- The Python slice `text[a:b]` on a list of characters. -/
def pySlice (s : List Char) (a b : Int) : List Char :=
  (s.take (pyNorm s.length b)).drop (pyNorm s.length a)

/-- Largest index `i < b` with `a ≤ i` and `s[i] = c`, or `-1`. -/
def rfindBelow (s : List Char) (c : Char) (a : Nat) : Nat → Int
  | 0 => -1
  | b + 1 =>
    if a ≤ b ∧ s.getD b (Char.ofNat 0) = c then (b : Int) else rfindBelow s c a b

/-- The Python call `s.rfind(c, lo, hi)` for a single-character needle:
bounds are normalised with slice rules, the result is the largest
matching index in the normalised range, or `-1`. -/
def pyRfind (s : List Char) (c : Char) (lo hi : Int) : Int :=
  rfindBelow s c (pyNorm s.length lo) (pyNorm s.length hi)

/-- The Python call `s.strip()`: drop leading whitespace, then trailing. -/
def pyStrip (s : List Char) : List Char :=
  ((s.dropWhile Char.isWhitespace).reverse.dropWhile Char.isWhitespace).reverse

/-- The adjusted window end `end` computed by one iteration of
`chunk_text` (vector_store_example.py, lines 22-32): the raw boundary
`start + max_size`, trimmed back to just after the nearest sentence
terminator found in the last 200 characters of the window. -/
def chunkEnd (text : List Char) (maxSize start : Int) : Int :=
  let e0 := start + maxSize
  if e0 < (text.length : Int) then
    -- Look for sentence endings within the last 200 chars
    let searchStart := max (start + maxSize - 200) start
    let s1 := pyRfind text '.' searchStart e0
    let s2 := if s1 = -1 then pyRfind text '。' searchStart e0 else s1
    if s2 ≠ -1 then s2 + 1 else e0
  else e0

/-- One iteration of the `while start < len(text)` loop of `chunk_text`
(vector_store_example.py, lines 21-39).  Returns the (stripped) chunk of
this iteration together with the next value of `start`. -/
def chunkStep (text : List Char) (maxSize overlap start : Int) : List Char × Int :=
  let e := chunkEnd text maxSize start
  (pyStrip (pySlice text start e),
   if e < (text.length : Int) then e - overlap else (text.length : Int))

/-- The `while` loop of `chunk_text`, with explicit fuel: `none` means
the fuel ran out before the loop finished.  `chunkText` supplies fuel
`text.length + 1`, which is proved sufficient whenever
`overlap + 200 ≤ maxSize` (each iteration then advances `start`). -/
def chunkTextLoop (text : List Char) (maxSize overlap : Int) :
    Nat → Int → List (List Char) → Option (List (List Char))
  | 0, _, _ => none
  | fuel + 1, start, acc =>
    if start < (text.length : Int) then
      let p := chunkStep text maxSize overlap start
      chunkTextLoop text maxSize overlap fuel p.2
        (if p.1 = [] then acc else acc ++ [p.1])
    else some acc

/-- Models `chunk_text` (vector_store_example.py, lines 13-41). -/
def chunkText (text : List Char) (maxSize overlap : Int) : List (List Char) :=
  if (text.length : Int) ≤ maxSize then [text]
  else (chunkTextLoop text maxSize overlap (text.length + 1) 0 []).getD []

/-- A scalar metadata value (string or integer). -/
inductive MVal where
  | str (s : List Char)
  | int (n : Int)
deriving DecidableEq

/-- A document dict as consumed by `chunk_documents`: an optional
`id` key, a `content` key and a `metadata` dict (modelled as an
insertion-ordered association list). -/
structure PyDoc where
  id : Option (List Char)
  content : List Char
  metadata : List (List Char × MVal)
deriving DecidableEq

/-- The Python merge `{**parent, **adds}`: keys of `parent` keep their position
(with updated values); genuinely new keys are appended in order. -/
def mergeDict (parent adds : List (List Char × MVal)) : List (List Char × MVal) :=
  (parent.map fun kv =>
    match adds.find? (fun kv2 => kv2.1 == kv.1) with
    | some kv2 => (kv.1, kv2.2)
    | none => kv)
  ++ adds.filter (fun kv2 => (parent.find? (fun kv => kv.1 == kv2.1)).isNone)

/-- The `chunk_doc` dict built for the `i`-th text chunk of a document
(vector_store_example.py, lines 60-70); `total` is `len(text_chunks)`. -/
def mkChunkDoc (doc : PyDoc) (total : Nat) (ic : Nat × List Char) : PyDoc :=
  { id := some ((doc.id.getD (("doc").data)) ++ (("_chunk_").data) ++ Nat.toDigits 10 ic.1),
    content := pyStrip ic.2,
    metadata := mergeDict doc.metadata
      [((("chunk_index").data), MVal.int ic.1),
       ((("total_chunks").data), MVal.int total),
       ((("original_id").data), MVal.str (doc.id.getD (("doc").data))),
       ((("chunk_type").data), MVal.str (("text").data))] }

/-- The chunk documents built from one oversized document
(vector_store_example.py, lines 56-71): empty chunks are skipped. -/
def chunkDocsOf (doc : PyDoc) (maxSize overlap : Int) : List PyDoc :=
  let textChunks := chunkText doc.content maxSize overlap
  textChunks.enum.filterMap fun ic =>
    if pyStrip ic.2 = [] then none
    else some (mkChunkDoc doc textChunks.length ic)

/-- Models `chunk_documents` (vector_store_example.py, lines 43-75), restricted
to entries that are dicts carrying a `content` key (the only case the
claims quantify over). -/
def chunkDocuments (docs : List PyDoc) (maxSize overlap : Int) : List PyDoc :=
  (docs.map fun doc =>
    if (doc.content.length : Int) ≤ maxSize then [doc]
    else chunkDocsOf doc maxSize overlap).flatten

/-! ## Benchmark harness (benchmark_system.py) -/

/-- Models `TestCase` (benchmark_system.py, lines 21-31). -/
structure TestCase where
  query : List Char
  expected_answer : List Char
  ground_truth_location : List Char
  difficulty : List Char
  importance : List Char
  requires_reasoning : Option (List Char) := none
  why_hard : Option (List Char) := none
  category : Option (List Char) := none
deriving DecidableEq

/-- Models `evaluation_notes` content.  The success branch interpolates the
match count, term count and the confidence into an f-string; the error
branch interpolates the exception text into `"System error: {e}"`.
The payloads are kept structured rather than rendered (float formatting
is presentation only; no claim inspects the rendered success string). -/
inductive Notes where
  | keyTerms (found total : Nat) (conf : ℚ)
  | systemError (msg : List Char)
deriving DecidableEq

/-- Models `EvaluationResult` (benchmark_system.py, lines 33-44).
`response_time` is wall-clock and modelled as 0. -/
structure EvaluationResult where
  query : List Char
  expected_answer : List Char
  actual_answer : List Char
  is_correct : Bool
  confidence_score : ℚ
  response_time : ℚ
  difficulty : List Char
  category : List Char
  evaluation_notes : Notes
deriving DecidableEq

/-- The Python test `needle in haystack` on strings. -/
def isSubOf (needle : List Char) : List Char → Bool
  | [] => needle.isEmpty
  | c :: rest => needle.isPrefixOf (c :: rest) || isSubOf needle rest

/-- Models `str.split()` helper: accumulates the current word (reversed). -/
def splitWsAux : List Char → List Char → List (List Char)
  | cur, [] => if cur = [] then [] else [cur.reverse]
  | cur, c :: cs =>
    if c.isWhitespace then
      (if cur = [] then [] else [cur.reverse]) ++ splitWsAux [] cs
    else splitWsAux (c :: cur) cs

/-- The Python call `str.split()` (split on whitespace runs, no empty words). -/
def splitWs (s : List Char) : List (List Char) := splitWsAux [] s

/-- The hand-authored key-term heuristics of `evaluate_answer`
(benchmark_system.py, lines 253-278), applied to the lowercased
expected answer; the `extend`/`append` calls are kept in source order. -/
def heuristicTerms (e : List Char) : List (List Char) :=
  (if isSubOf (("3 retry").data) e || isSubOf (("3-second").data) e then
    [(("3").data), (("retry").data), (("second").data)] else [])
  ++ (if isSubOf (("new-orders").data) e then [(("new-orders").data)] else [])
  ++ (if isSubOf (("payment_halt").data) e || isSubOf (("kafka listener stops").data) e then
    [(("payment").data), (("halt").data), (("listener").data), (("stop").data)] else [])
  ++ (if isSubOf (("h2").data) e && isSubOf (("file").data) e then
    [(("h2").data), (("file").data), (("local").data)] else [])
  ++ (if isSubOf (("pod restart").data) e then [(("pod").data), (("restart").data)] else [])
  ++ (if isSubOf (("permanent").data) e && isSubOf (("loss").data) e then
    [(("permanent").data), (("loss").data)] else [])
  ++ (if isSubOf (("legacypaymentfallback").data) e then
    [(("legacy").data), (("payment").data), (("fallback").data)] else [])
  ++ (if isSubOf (("test coverage").data) e then [(("test").data), (("coverage").data)] else [])
  ++ (if isSubOf (("deprecated").data) e then [(("deprecated").data)] else [])
  ++ (if isSubOf (("hardcoded").data) e then [(("hardcoded").data), (("redis").data)] else [])
  ++ (if isSubOf (("java 17").data) e then [(("java").data), (("17").data)] else [])
  ++ (if isSubOf (("spring boot").data) e then [(("spring").data), (("boot").data)] else [])

/-- The fallback term extraction (benchmark_system.py, lines 281-284):
whitespace tokens of the lowercased expected answer, keeping words
longer than 3 characters outside the four-word stop list. -/
def fallbackTerms (e : List Char) : List (List Char) :=
  (splitWs e).filter fun w =>
    decide (3 < w.length) &&
      !([(("that").data), (("with").data), (("from").data), (("this").data)].contains w)

/-- Key terms of an expected answer: the heuristics, or if they
produced nothing, the fallback tokenisation. -/
def keyTermsOf (e : List Char) : List (List Char) :=
  let h := heuristicTerms e
  if h = [] then fallbackTerms e else h

/-- Outcome of `evaluate_answer`: the `(is_correct, confidence_score,
evaluation_notes)` triple. -/
structure EvalOutcome where
  correct : Bool
  conf : ℚ
  notes : Notes
deriving DecidableEq

/-- Models `ConfluenceBenchmark.evaluate_answer` (benchmark_system.py,
lines 244-295), with float arithmetic carried out exactly over `ℚ`. -/
def evaluateAnswer (expected actual : List Char) (tc : TestCase) : EvalOutcome :=
  let expectedLower := expected.map Char.toLower
  let actualLower := actual.map Char.toLower
  let keyTerms := keyTermsOf expectedLower
  let found := (keyTerms.filter fun t => isSubOf t actualLower).length
  let conf : ℚ := if keyTerms = [] then 0 else (found : ℚ) / (keyTerms.length : ℚ)
  let threshold : ℚ := if tc.difficulty ≠ (("HARD").data) then 3 / 5 else 1 / 2
  { correct := decide (threshold ≤ conf),
    conf := conf,
    notes := Notes.keyTerms found keyTerms.length conf }

/-- Shape of a value returned by the `ask` method of a system: either a
dict (whose `answer` key may be absent, defaulting to the empty string)
or any other
value, taken through `str(...)`. -/
inductive AskResult where
  | dictWith (answer : Option (List Char))
  | plain (s : List Char)

/-- A system under test, duck-typed over `ask`/`query`
(`none` models the absence of the attribute); either method may raise,
modelled by `Except` with the exception text. -/
structure RagSystem where
  ask : Option (List Char → Except (List Char) AskResult)
  query : Option (List Char → Except (List Char) (List Char))

/-- The `ValueError` text raised when the system under test has
neither an `ask` nor a `query` method (benchmark_system.py, line 318). -/
def missingMethodMsg : List Char :=
  ("RAG system must have \x27ask\x27 or \x27query\x27 method").data

/-- The body of the `try` block of `evaluate_rag_system` up to
obtaining `actual_answer` (benchmark_system.py, lines 312-318):
dispatch on `ask`/`query` presence, raising `ValueError` when both are
absent; any raised error is the `Except.error` payload. -/
def callRagSystem (sys : RagSystem) (q : List Char) : Except (List Char) (List Char) :=
  match sys.ask with
  | some f =>
    match f q with
    | Except.ok (AskResult.dictWith a) => Except.ok (a.getD [])
    | Except.ok (AskResult.plain s) => Except.ok s
    | Except.error e => Except.error e
  | none =>
    match sys.query with
    | some g => g q
    | none => Except.error missingMethodMsg

/-- Models `test_case.category or "Unknown"` (Python truthiness: `None` and
the empty string both fall back). -/
def categoryOr (tc : TestCase) : List Char :=
  match tc.category with
  | some c => if c = [] then ("Unknown").data else c
  | none => ("Unknown").data

/-- One iteration of the evaluation loop of `evaluate_rag_system`
(benchmark_system.py, lines 306-362): the `try` branch on success, the
`except` branch when the system call raises. -/
def evalCase (sys : RagSystem) (tc : TestCase) : EvaluationResult :=
  match callRagSystem sys tc.query with
  | Except.ok actual =>
    let r := evaluateAnswer tc.expected_answer actual tc
    { query := tc.query, expected_answer := tc.expected_answer, actual_answer := actual,
      is_correct := r.correct, confidence_score := r.conf, response_time := 0,
      difficulty := tc.difficulty, category := categoryOr tc, evaluation_notes := r.notes }
  | Except.error e =>
    { query := tc.query, expected_answer := tc.expected_answer,
      actual_answer := ("ERROR: ").data ++ e,
      is_correct := false, confidence_score := 0, response_time := 0,
      difficulty := tc.difficulty, category := categoryOr tc,
      evaluation_notes := Notes.systemError e }

/-- The per-case results collected by
`ConfluenceBenchmark.evaluate_rag_system` over a test-case list. -/
def evaluateRagSystem (sys : RagSystem) (cases : List TestCase) : List EvaluationResult :=
  cases.map (evalCase sys)

/-! ## QA agent (qa_agent.py) -/

/-- A LangChain document as consumed by `QAAgent.ask`: retrieved page
content plus its metadata dict. -/
structure LCDoc where
  page_content : List Char
  metadata : List (List Char × MVal)
deriving DecidableEq

/-- The value returned by `self.qa_chain.invoke({"query": question})`:
the generated answer under `"result"` and the retrieved chunks under
`"source_documents"`. -/
structure ChainOutput where
  result : List Char
  source_documents : List LCDoc
deriving DecidableEq

/-- One entry of `retrieved_context` (qa_agent.py, lines 71-75).
`relevance_score` comes from `getattr` with default `None`,
which is always `None` for LangChain documents. -/
structure RetrievedChunk where
  chunk_id : Nat
  content : List Char
  relevance_score : Option ℚ
deriving DecidableEq

/-- One entry of `evidence` (qa_agent.py, lines 78-84). -/
structure EvidenceEntry where
  source_id : Nat
  source : MVal
  page : Option MVal
  chunk_size : Nat
deriving DecidableEq

/-- The dict returned by `QAAgent.ask` (qa_agent.py, lines 86-92).
`timestamp` is wall-clock and not modelled. -/
structure AskOutput where
  question : List Char
  answer : List Char
  retrieved_context : List RetrievedChunk
  evidence : List EvidenceEntry
deriving DecidableEq

/-- Metadata lookup with a default, the Python call `metadata.get(k, d)`. -/
def metaGet (m : List (List Char × MVal)) (k : List Char) : Option MVal :=
  (m.find? (fun kv => kv.1 == k)).map (fun kv => kv.2)

/-- Models `QAAgent.ask` (qa_agent.py, lines 60-92).  The retrieval chain
(`self.qa_chain.invoke`, an external retrieval + LLM call) is passed in
as `chain`; the body performs no input validation and invokes the chain
on every question unconditionally. -/
def qaAgentAsk (chain : List Char → ChainOutput) (question : List Char) : AskOutput :=
  let r := chain question
  { question := question,
    answer := r.result,
    retrieved_context := r.source_documents.enum.map fun id2 =>
      { chunk_id := id2.1 + 1, content := id2.2.page_content, relevance_score := none },
    evidence := r.source_documents.enum.map fun id2 =>
      { source_id := id2.1 + 1,
        source := (metaGet id2.2.metadata (("source").data)).getD (MVal.str (("Unknown").data)),
        page := metaGet id2.2.metadata (("page").data),
        chunk_size := id2.2.page_content.length } }

/-! ## Vector store (vector_store.py) -/

/-- A record stored in a chroma collection: id, document text and
metadata (the embedding is computed inside chroma and not modelled). -/
structure VSRecord where
  id : List Char
  content : List Char
  metadata : List (List Char × MVal)
deriving DecidableEq

/-- The chroma collection handle held by a `VectorStore`. -/
structure PyCollection where
  name : List Char
  meta : List (List Char × MVal)
  store : List VSRecord
deriving DecidableEq

/-- A search hit as formatted by `VectorStore.search`. -/
structure SearchHit where
  id : List Char
  content : List Char
  metadata : List (List Char × MVal)
  distance : Option ℚ
deriving DecidableEq

/-- Models `VectorStore` state: `self.collection`, `None` until
`create_or_get_collection` succeeds (vector_store.py, line 13). -/
structure VectorStore where
  collection : Option PyCollection
deriving DecidableEq

/-- Models `VectorStore.__init__`: it leaves `self.collection = None`. -/
def initVectorStore : VectorStore := { collection := none }

/-- The `ValueError` message raised by every operation that is invoked
before `create_or_get_collection` (vector_store.py, lines 33/52/79/90/109). -/
def notInitMsg : List Char :=
  ("Collection not initialized. Call create_or_get_collection first.").data

/-- Models `VectorStore.create_or_get_collection` (vector_store.py, lines
19-29): obtains a handle from the persistent chroma client (an external
collaborator, modelled by `existing`) and stores it in `self.collection`. -/
def createOrGetCollection (_s : VectorStore) (name : List Char)
    (existing : Option PyCollection) : VectorStore × PyCollection :=
  let c := existing.getD
    { name := name, meta := [((("hnsw:space").data), MVal.str (("cosine").data))], store := [] }
  ({ collection := some c }, c)

/-- Models `VectorStore.add_documents` (vector_store.py, lines 31-48): raises
before touching anything when the collection is missing; otherwise the
records are added to the collection.  The mutator returns the new state
paired with the raised error text, `none` on success; on an error the
state component is the unchanged input state. -/
def addDocuments (s : VectorStore) (docs : List VSRecord) :
    VectorStore × Option (List Char) :=
  match s.collection with
  | none => (s, some notInitMsg)
  | some c => ({ collection := some { c with store := c.store ++ docs } }, none)

/-- Models `VectorStore.search` (vector_store.py, lines 50-75): the chroma
nearest-neighbour query itself is external and passed in as `engine`. -/
def searchOp (engine : PyCollection → List Char → Nat → Option (List (List Char × MVal)) → List SearchHit)
    (s : VectorStore) (query : List Char) (nResults : Nat)
    (whr : Option (List (List Char × MVal))) : Except (List Char) (List SearchHit) :=
  match s.collection with
  | none => Except.error notInitMsg
  | some c => Except.ok (engine c query nResults whr)

/-- Models `VectorStore.delete_documents` (vector_store.py, lines 77-86). -/
def deleteDocuments (s : VectorStore) (ids : List (List Char)) :
    VectorStore × Option (List Char) :=
  match s.collection with
  | none => (s, some notInitMsg)
  | some c =>
    ({ collection := some { c with store := c.store.filter fun r => !(ids.contains r.id) } },
     none)

/-- Models `VectorStore.update_documents` (vector_store.py, lines 88-105):
records whose id matches an update receive the new content/metadata. -/
def updateDocuments (s : VectorStore) (docs : List VSRecord) :
    VectorStore × Option (List Char) :=
  match s.collection with
  | none => (s, some notInitMsg)
  | some c =>
    ({ collection := some
        { c with store := c.store.map fun r =>
            match docs.find? (fun d => d.id == r.id) with
            | some d => d
            | none => r } },
     none)

/-- Models `VectorStore.get_collection_info` (vector_store.py, lines 107-120):
returns the dict of name, count and collection metadata. -/
def getCollectionInfo (s : VectorStore) :
    Except (List Char) (List Char × Nat × List (List Char × MVal)) :=
  match s.collection with
  | none => Except.error notInitMsg
  | some c => Except.ok (c.name, c.store.length, c.meta)

/-! ## Ghost definitions used to state the chunker claims -/

/-- Window slice `text[a:b)` on already-normalised `Nat` indices. -/
def sliceN (text : List Char) (a b : Nat) : List Char :=
  (text.take b).drop a

/-- Follows the words of the claim for the sentence-boundary search of
`chunk_text`: identical to `chunkStep` except that the backward search
margin is the last `overlap` characters of the window
(`start + max_size - overlap` to the window end) instead of the
hard-coded 200 of the source. -/
def chunkStepSpec (text : List Char) (maxSize overlap start : Int) : List Char × Int :=
  let e0 := start + maxSize
  let e :=
    if e0 < (text.length : Int) then
      let searchStart := max (start + maxSize - overlap) start
      let s1 := pyRfind text '.' searchStart e0
      let s2 := if s1 = -1 then pyRfind text '。' searchStart e0 else s1
      if s2 ≠ -1 then s2 + 1 else e0
    else e0
  (pyStrip (pySlice text start e),
   if e < (text.length : Int) then e - overlap else (text.length : Int))

/-- The reading of "concatenating the chunk contents after removing the
overlap-sized repeated region at each boundary": keep the first chunk
whole and drop the first `ov` characters of every later chunk. -/
def overlapJoin (ov : Nat) : List (List Char) → List Char
  | [] => []
  | c :: cs => c ++ (cs.map (fun d => d.drop ov)).flatten

/-- The chain of windows `[s, e)` traversed by the `chunk_text` loop:
consecutive windows overlap in exactly `ov` characters and the last
window ends at `n` (the text length). -/
inductive WinChain (ov n : Nat) : Nat → List (Nat × Nat) → Prop
  | last (s : Nat) : s < n → WinChain ov n s [(s, n)]
  | step (s e : Nat) (ws : List (Nat × Nat)) : s + ov < e → e < n →
      WinChain ov n (e - ov) ws → WinChain ov n s ((s, e) :: ws)

/-- Drop the empty strings of a list, keeping the rest in order (the
`if chunk:` filtering performed by the `chunk_text` loop). -/
def keepNonempty : List (List Char) → List (List Char)
  | [] => []
  | c :: cs => (if c = [] then [] else [c]) ++ keepNonempty cs

/-! ## Concrete values used by witnesses and counterexamples -/

/-- The first test case of `_create_test_cases`
(benchmark_system.py, lines 74-81). -/
def tcNewOrders : TestCase :=
  { query := ("What Kafka topic does the Order-Processor Service consume from?").data,
    expected_answer := ("new-orders").data,
    ground_truth_location := ("Order-Processor Service - Overview section").data,
    difficulty := ("EASY").data,
    importance := ("MEDIUM").data,
    category := some (("Configuration").data) }

/-- A document shorter than any chunk size used below. -/
def dSmall : PyDoc :=
  { id := some (("doc1").data), content := ("hi").data, metadata := [] }

/-- A document whose content starts with a whitespace character:
stripping the first chunk discards that character. -/
def dLeadingSpace : PyDoc :=
  { id := some (("d1").data),
    content := Char.ofNat 32 :: List.replicate 210 'x',
    metadata := [] }

/-- A system under test whose `ask` method always raises. -/
def failSys : RagSystem :=
  { ask := some (fun _ => Except.error (("boom").data)), query := none }

/-- A system under test exposing neither `ask` nor `query`. -/
def noMethodSys : RagSystem := { ask := none, query := none }

/-- A retrieval chain that records the question it was invoked on. -/
def probeChain : List Char → ChainOutput :=
  fun q => { result := ("ran:").data ++ q, source_documents := [] }

/-- A trivial nearest-neighbour engine for vector-store witnesses. -/
def nullEngine : PyCollection → List Char → Nat → Option (List (List Char × MVal)) → List SearchHit :=
  fun _ _ _ _ => []

/-! ## Claim theorems -/

/-- C1: `evaluate_answer` computes `confidence_score` as the number of
key terms occurring in the lowercased actual answer divided by the
number of key terms, and `is_correct` holds exactly when the score
reaches 0.6 for non-HARD difficulties and 0.5 for HARD; in particular,
for expected answer "new-orders", the answer "It consumes from the
new-orders topic." is scored correct and the no-information answer is scored
incorrect with confidence 0. -/
theorem c1_evaluate_answer_scoring :
    ∀ (tc : TestCase) (expected actual : List Char),
      ((evaluateAnswer expected actual tc).conf =
        (((keyTermsOf (expected.map Char.toLower)).filter
            (fun t => isSubOf t (actual.map Char.toLower))).length : ℚ) /
          ((keyTermsOf (expected.map Char.toLower)).length : ℚ) ∧
      ((evaluateAnswer expected actual tc).correct = true ↔
        (if tc.difficulty = (("HARD").data) then (1 : ℚ) / 2 else 3 / 5) ≤
          (evaluateAnswer expected actual tc).conf)) ∧
      (evaluateAnswer (("new-orders").data)
        (("It consumes from the new-orders topic.").data) tcNewOrders).correct = true ∧
      (evaluateAnswer (("new-orders").data)
        (("I don\x27t know").data) tcNewOrders).correct = false ∧
      (evaluateAnswer (("new-orders").data)
        (("I don\x27t know").data) tcNewOrders).conf = 0 := by
  have hk : keyTermsOf (List.map Char.toLower (("new-orders").data)) =
      [(("new-orders").data)] := by decide
  have hpos : (List.filter
      (fun t => isSubOf t (List.map Char.toLower
        (("It consumes from the new-orders topic.").data)))
      [(("new-orders").data)]).length = 1 := by decide
  have hneg : (List.filter
      (fun t => isSubOf t (List.map Char.toLower (("I don\x27t know").data)))
      [(("new-orders").data)]).length = 0 := by decide
  refine fun tc expected actual => ⟨⟨?_, ?_⟩, ?_, ?_, ?_⟩
  · by_cases h : keyTermsOf (List.map Char.toLower expected) = []
    · simp [evaluateAnswer, h]
    · simp [evaluateAnswer, h]
  · by_cases hd : tc.difficulty = (("HARD").data) <;>
      simp [evaluateAnswer, hd]
  · simp only [evaluateAnswer, hk, hpos]
    norm_num
    split <;> norm_num
  · simp only [evaluateAnswer, hk, hneg]
    norm_num
    split <;> norm_num
  · simp only [evaluateAnswer, hk, hneg]
    norm_num

/-- C10: when no hand-authored heuristic fires and every whitespace
token of the lowercased expected answer is short or a stop word, the
key-term list is empty and `evaluate_answer` returns confidence 0 and
`is_correct = false` for every actual answer (the division is
guarded). -/
theorem c10_no_keyterms_zero :
    ∀ (tc : TestCase) (expected actual : List Char),
      heuristicTerms (expected.map Char.toLower) = [] →
      (∀ w ∈ splitWs (expected.map Char.toLower),
        w.length ≤ 3 ∨
          w ∈ [(("that").data), (("with").data), (("from").data), (("this").data)]) →
      (evaluateAnswer expected actual tc).conf = 0 ∧
      (evaluateAnswer expected actual tc).correct = false := by
  intro tc expected actual hh hw
  have hfb : fallbackTerms (expected.map Char.toLower) = [] := by
    refine List.filter_eq_nil_iff.mpr fun w hwmem => ?_
    rcases hw w hwmem with hlen | hstop
    · simp [decide_eq_true_eq, Nat.not_lt.mpr hlen]
    · simp [List.elem_iff, hstop]
  have hkt : keyTermsOf (expected.map Char.toLower) = [] := by
    simp [keyTermsOf, hh, hfb]
  constructor
  · simp [evaluateAnswer, hkt]
  · by_cases hd : tc.difficulty = (("HARD").data) <;>
      simp [evaluateAnswer, hkt, hd]

/-- C10 witness: the expected answer "a of the" triggers no heuristic
and tokenises to short words only, so any answer scores 0. -/
theorem c10_no_keyterms_zero_witness :
    (heuristicTerms ((("a of the").data).map Char.toLower) = [] ∧
      ∀ w ∈ splitWs ((("a of the").data).map Char.toLower),
        w.length ≤ 3 ∨
          w ∈ [(("that").data), (("with").data), (("from").data), (("this").data)]) ∧
    (evaluateAnswer (("a of the").data) (("anything").data) tcNewOrders).conf = 0 ∧
    (evaluateAnswer (("a of the").data) (("anything").data) tcNewOrders).correct = false :=
  ⟨⟨by decide, by decide⟩,
    c10_no_keyterms_zero tcNewOrders (("a of the").data) (("anything").data)
      (by decide) (by decide)⟩

/-- C9: a text no longer than `max_size` is returned as the singleton
`[text]` by `chunk_text`, and a document whose content is no longer
than `max_size` passes through `chunk_documents` unchanged. -/
theorem c9_passthrough :
    ∀ (text : List Char) (d : PyDoc) (maxSize overlap : Int),
      ((text.length : Int) ≤ maxSize → chunkText text maxSize overlap = [text]) ∧
      ((d.content.length : Int) ≤ maxSize → chunkDocuments [d] maxSize overlap = [d]) := by
  intro text d maxSize overlap
  constructor
  · intro h
    simp [chunkText, h]
  · intro h
    simp [chunkDocuments, h]

/-- C9 witness: a two-character text and document with the default
parameters 1000/200. -/
theorem c9_passthrough_witness :
    (((("hi").data).length : Int) ≤ 1000 ∧
      ((dSmall.content.length : Int) ≤ 1000) ∧
    chunkText (("hi").data) 1000 200 = [(("hi").data)] ∧
    chunkDocuments [dSmall] 1000 200 = [dSmall]) :=
  ⟨by decide, by decide,
    (c9_passthrough (("hi").data) dSmall 1000 200).1 (by decide),
    (c9_passthrough (("hi").data) dSmall 1000 200).2 (by decide)⟩

/-- C8: with `self.collection` still `None` (no call to
`create_or_get_collection` yet), every vector store operation —
add, search, delete, update and info — fails with the
collection-not-initialized `ValueError` and leaves the state
unchanged. -/
theorem c8_not_initialized_guard :
    ∀ (s : VectorStore), s.collection = none →
      ∀ (docs recs : List VSRecord) (q : List Char) (n : Nat)
        (w : Option (List (List Char × MVal))) (ids : List (List Char))
        (engine : PyCollection → List Char → Nat → Option (List (List Char × MVal)) → List SearchHit),
        addDocuments s docs = (s, some notInitMsg) ∧
        searchOp engine s q n w = Except.error notInitMsg ∧
        deleteDocuments s ids = (s, some notInitMsg) ∧
        updateDocuments s recs = (s, some notInitMsg) ∧
        getCollectionInfo s = Except.error notInitMsg := by
  intro s hs docs recs q n w ids engine
  refine ⟨?_, ?_, ?_, ?_, ?_⟩ <;>
    simp [addDocuments, searchOp, deleteDocuments, updateDocuments, getCollectionInfo, hs]

/-- C8 witness: the freshly constructed store rejects all five
operations with the not-initialized error. -/
theorem c8_not_initialized_guard_witness :
    initVectorStore.collection = none ∧
    addDocuments initVectorStore [] = (initVectorStore, some notInitMsg) ∧
    searchOp nullEngine initVectorStore (("web3").data) 5 none = Except.error notInitMsg ∧
    deleteDocuments initVectorStore [(("doc3").data)] = (initVectorStore, some notInitMsg) ∧
    updateDocuments initVectorStore [] = (initVectorStore, some notInitMsg) ∧
    getCollectionInfo initVectorStore = Except.error notInitMsg := by
  have h := c8_not_initialized_guard initVectorStore rfl [] []
    (("web3").data) 5 none [(("doc3").data)] nullEngine
  exact ⟨rfl, h.1, h.2.1, h.2.2.1, h.2.2.2.1, h.2.2.2.2⟩

/-- C4: `evaluate_rag_system` yields exactly one result per test case,
and whenever calling the system under test on case `i` raises, the
`i`-th result records `is_correct = false`, `confidence_score = 0` and
the error text in the notes, while later cases are still evaluated
(the result list is a per-case map, so case `i+1` is unaffected). -/
theorem c4_error_isolated_per_case :
    ∀ (sys : RagSystem) (cases : List TestCase),
      (evaluateRagSystem sys cases).length = cases.length ∧
      ∀ (i : Nat) (h : i < cases.length) (e : List Char),
        callRagSystem sys (cases.get ⟨i, h⟩).query = Except.error e →
        ∃ h2 : i < (evaluateRagSystem sys cases).length,
          (evaluateRagSystem sys cases).get ⟨i, h2⟩ =
            { query := (cases.get ⟨i, h⟩).query,
              expected_answer := (cases.get ⟨i, h⟩).expected_answer,
              actual_answer := ("ERROR: ").data ++ e,
              is_correct := false, confidence_score := 0, response_time := 0,
              difficulty := (cases.get ⟨i, h⟩).difficulty,
              category := categoryOr (cases.get ⟨i, h⟩),
              evaluation_notes := Notes.systemError e } := by
  intro sys cases
  have hlen : (evaluateRagSystem sys cases).length = cases.length := by
    simp [evaluateRagSystem]
  refine ⟨hlen, fun i h e herr => ⟨hlen ▸ h, ?_⟩⟩
  have hget : (evaluateRagSystem sys cases).get ⟨i, hlen ▸ h⟩ =
      evalCase sys (cases.get ⟨i, h⟩) := by
    simp [evaluateRagSystem]
  rw [hget, evalCase, herr]

/-- C4 witness: a one-case run against a system whose `ask` always
raises `boom` records that case as incorrect with the error in the
notes. -/
theorem c4_error_isolated_per_case_witness :
    (evaluateRagSystem failSys [tcNewOrders]).length = 1 ∧
    ∃ h2 : 0 < (evaluateRagSystem failSys [tcNewOrders]).length,
      (evaluateRagSystem failSys [tcNewOrders]).get ⟨0, h2⟩ =
        { query := tcNewOrders.query,
          expected_answer := tcNewOrders.expected_answer,
          actual_answer := ("ERROR: boom").data,
          is_correct := false, confidence_score := 0, response_time := 0,
          difficulty := tcNewOrders.difficulty,
          category := categoryOr tcNewOrders,
          evaluation_notes := Notes.systemError (("boom").data) } := by
  have h := c4_error_isolated_per_case failSys [tcNewOrders]
  exact ⟨h.1, h.2 0 (by decide) (("boom").data) rfl⟩

/-- C5 counterexample: contrary to the claim that a system exposing
neither `ask` nor `query` is treated as a run-level configuration
error, the `ValueError` is raised inside the per-case `try`, so the
run does produce a per-case `EvaluationResult` recording the missing
methods as an incorrect answer. -/
theorem c5_counterexample :
    evaluateRagSystem noMethodSys [tcNewOrders] =
      [{ query := tcNewOrders.query,
         expected_answer := tcNewOrders.expected_answer,
         actual_answer := ("ERROR: ").data ++ missingMethodMsg,
         is_correct := false, confidence_score := 0, response_time := 0,
         difficulty := (("EASY").data), category := (("Configuration").data),
         evaluation_notes := Notes.systemError missingMethodMsg }] := by
  decide

/-- C5 amended: for a system with neither `ask` nor `query`, every
test case yields one `EvaluationResult` marking the case incorrect
with confidence 0 and the missing-method `ValueError` text in the
notes; the run completes over all cases instead of aborting. -/
theorem c5_missing_methods_recorded_per_case :
    ∀ (cases : List TestCase) (i : Nat) (h : i < cases.length),
      (evaluateRagSystem noMethodSys cases).length = cases.length ∧
      ∃ h2 : i < (evaluateRagSystem noMethodSys cases).length,
        ((evaluateRagSystem noMethodSys cases).get ⟨i, h2⟩).is_correct = false ∧
        ((evaluateRagSystem noMethodSys cases).get ⟨i, h2⟩).confidence_score = 0 ∧
        ((evaluateRagSystem noMethodSys cases).get ⟨i, h2⟩).actual_answer =
          ("ERROR: ").data ++ missingMethodMsg ∧
        ((evaluateRagSystem noMethodSys cases).get ⟨i, h2⟩).evaluation_notes =
          Notes.systemError missingMethodMsg := by
  intro cases i h
  have hlen : (evaluateRagSystem noMethodSys cases).length = cases.length := by
    simp [evaluateRagSystem]
  refine ⟨hlen, hlen ▸ h, ?_⟩
  have hget : (evaluateRagSystem noMethodSys cases).get ⟨i, hlen ▸ h⟩ =
      evalCase noMethodSys (cases.get ⟨i, h⟩) := by
    simp [evaluateRagSystem]
  have hcall : callRagSystem noMethodSys (cases.get ⟨i, h⟩).query =
      Except.error missingMethodMsg := rfl
  rw [hget, evalCase, hcall]
  exact ⟨rfl, rfl, rfl, rfl⟩

/-- C5 witness: the amended statement for a concrete one-case run. -/
theorem c5_missing_methods_recorded_per_case_witness :
    (0 < [tcNewOrders].length) ∧
    ((evaluateRagSystem noMethodSys [tcNewOrders]).length = 1 ∧
      ∃ h2 : 0 < (evaluateRagSystem noMethodSys [tcNewOrders]).length,
        ((evaluateRagSystem noMethodSys [tcNewOrders]).get ⟨0, h2⟩).is_correct = false ∧
        ((evaluateRagSystem noMethodSys [tcNewOrders]).get ⟨0, h2⟩).confidence_score = 0 ∧
        ((evaluateRagSystem noMethodSys [tcNewOrders]).get ⟨0, h2⟩).actual_answer =
          ("ERROR: ").data ++ missingMethodMsg ∧
        ((evaluateRagSystem noMethodSys [tcNewOrders]).get ⟨0, h2⟩).evaluation_notes =
          Notes.systemError missingMethodMsg) :=
  ⟨by decide, c5_missing_methods_recorded_per_case [tcNewOrders] 0 (by decide)⟩

/-- C6 counterexample: contrary to the claim that a question which is
empty after trimming is rejected with a validation error before any
retrieval, `QAAgent.ask` performs no validation: on the all-whitespace
question it invokes the retrieval chain (the probe chain records the
invocation in its answer) and returns normally. -/
theorem c6_counterexample :
    pyStrip (("   ").data) = [] ∧
    qaAgentAsk probeChain (("   ").data) =
      { question := ("   ").data, answer := ("ran:   ").data,
        retrieved_context := [], evidence := [] } := by
  constructor
  · decide
  · decide

/-- C6 amended: `QAAgent.ask` validates nothing: for every question,
empty-after-trimming ones included, it forwards the question to the
retrieval chain and returns the generated answer of the chain, with one
retrieved-context entry per source document. -/
theorem c6_ask_no_validation :
    ∀ (chain : List Char → ChainOutput) (q : List Char),
      (qaAgentAsk chain q).question = q ∧
      (qaAgentAsk chain q).answer = (chain q).result ∧
      (qaAgentAsk chain q).retrieved_context.length =
        (chain q).source_documents.length := by
  intro chain q
  refine ⟨rfl, rfl, ?_⟩
  simp [qaAgentAsk]

/-- C2 counterexample: with the positive parameters
`max_size = overlap = 10` and a 15-character text (no sentence
terminators), the loop iteration starting at 0 moves `start` back to
0: the loop does not advance and `chunk_text` does not terminate, so
the claim fails for these positive parameters. -/
theorem c2_counterexample :
    (0 : Int) < 10 ∧ (10 : Int) < ((List.replicate 15 'x').length : Int) ∧
    (chunkStep (List.replicate 15 'x') 10 10 0).2 = 0 ∧
    chunkTextLoop (List.replicate 15 'x') 10 10 16 0 [] = none := by
  refine ⟨by decide, by decide, by decide, ?_⟩
  decide

/-- C7 counterexample: the sentence-boundary search window is the last
200 characters of the window, not the last `overlap` characters: with
`max_size = 10`, `overlap = 5` the code (margin `max(start+10-200,
start)`, i.e. the whole window) finds the period at index 2 and trims
the window to `ab.`, while the overlap-sized margin of the claim (positions
5..9) contains no terminator and keeps the raw 10-character window. -/
theorem c7_counterexample :
    (chunkStep (("ab.cdefghijklm").data) 10 5 0).1 = ("ab.").data ∧
    (chunkStep (("ab.cdefghijklm").data) 10 5 0).2 = -2 ∧
    (chunkStepSpec (("ab.cdefghijklm").data) 10 5 0).1 = ("ab.cdefghi").data ∧
    (chunkStepSpec (("ab.cdefghijklm").data) 10 5 0).2 = 5 := by
  refine ⟨by decide, by decide, by decide, by decide⟩

/-- C7 amended: the backward search for a sentence terminator uses the
fixed 200-character margin `max(start + max_size - 200, start)`; the
produced chunk is therefore independent of `overlap`, and the claimed
overlap-sized margin describes the code exactly when `overlap = 200`
(the default). -/
theorem c7_margin_is_200 :
    ∀ (text : List Char) (maxSize start : Int),
      chunkStep text maxSize 200 start = chunkStepSpec text maxSize 200 start ∧
      ∀ (ov1 ov2 : Int),
        (chunkStep text maxSize ov1 start).1 = (chunkStep text maxSize ov2 start).1 := by
  intro text maxSize start
  exact ⟨rfl, fun ov1 ov2 => rfl⟩

/-! ### Helper lemmas for the chunker claims -/

theorem rfindBelow_spec (s : List Char) (c : Char) (a : Nat) :
    ∀ b : Nat, rfindBelow s c a b = -1 ∨
      ∃ i : Nat, rfindBelow s c a b = (i : Int) ∧ a ≤ i ∧ i < b := by
  intro b
  induction b with
  | zero => exact Or.inl rfl
  | succ b ih =>
    by_cases h : a ≤ b ∧ s.getD b (Char.ofNat 0) = c
    · exact Or.inr ⟨b, by simp only [rfindBelow, if_pos h], h.1, Nat.lt_succ_self b⟩
    · rcases ih with h1 | ⟨i, h1, h2, h3⟩
      · exact Or.inl (by simp only [rfindBelow, if_neg h]; exact h1)
      · exact Or.inr ⟨i, by simp only [rfindBelow, if_neg h]; exact h1, h2,
          Nat.lt_succ_of_lt h3⟩

theorem pyRfind_spec (s : List Char) (c : Char) (lo hi : Int)
    (hlo : 0 ≤ lo) (hhi0 : 0 ≤ hi) (hhi : hi ≤ (s.length : Int)) :
    pyRfind s c lo hi = -1 ∨
      ∃ i : Nat, pyRfind s c lo hi = (i : Int) ∧ lo ≤ (i : Int) ∧ (i : Int) < hi := by
  have hA : pyNorm s.length lo = min lo.toNat s.length := by
    simp [pyNorm, not_lt.mpr hlo]
  have hB : pyNorm s.length hi = min hi.toNat s.length := by
    simp [pyNorm, not_lt.mpr hhi0]
  rcases rfindBelow_spec s c (pyNorm s.length lo) (pyNorm s.length hi) with h | ⟨i, h1, h2, h3⟩
  · exact Or.inl h
  · refine Or.inr ⟨i, h1, ?_, ?_⟩
    · rw [hA] at h2; rw [hB] at h3; omega
    · rw [hB] at h3; omega

theorem pySlice_eq_sliceN (text : List Char) (a b : Int)
    (ha0 : 0 ≤ a) (ha : a ≤ (text.length : Int)) (hb0 : 0 ≤ b) :
    pySlice text a b = sliceN text a.toNat (min b.toNat text.length) := by
  unfold pySlice sliceN pyNorm
  rw [if_neg (not_lt.mpr ha0), if_neg (not_lt.mpr hb0)]
  congr 1
  omega

theorem chunkEnd_bounds (text : List Char) (maxSize start : Int)
    (hms : 0 < maxSize) (h3 : 0 ≤ start)
    (he : start + maxSize < (text.length : Int)) :
    max (start + maxSize - 200) start < chunkEnd text maxSize start ∧
    chunkEnd text maxSize start ≤ start + maxSize := by
  unfold chunkEnd
  rw [if_pos he]
  dsimp only
  have hlo : (0 : Int) ≤ max (start + maxSize - 200) start := le_max_of_le_right h3
  have hhi0 : (0 : Int) ≤ start + maxSize := by omega
  have hhi : start + maxSize ≤ (text.length : Int) := le_of_lt he
  rcases pyRfind_spec text '.' (max (start + maxSize - 200) start) (start + maxSize)
      hlo hhi0 hhi with hdot | ⟨i, hdot, hi1, hi2⟩
  · rcases pyRfind_spec text '。' (max (start + maxSize - 200) start) (start + maxSize)
        hlo hhi0 hhi with hcn | ⟨j, hcn, hj1, hj2⟩
    · simp only [hdot, hcn, if_pos rfl]
      norm_num
      omega
    · have hj : ((j : Int)) ≠ -1 := by omega
      simp only [hdot, hcn, if_pos rfl, if_neg, hj, ne_eq, not_false_eq_true, if_true]
      omega
  · have hi : ((i : Int)) ≠ -1 := by omega
    simp only [hdot, if_neg hi, ne_eq, not_false_eq_true, if_true]
    omega

theorem chunkEnd_of_ge (text : List Char) (maxSize start : Int)
    (he : (text.length : Int) ≤ start + maxSize) :
    chunkEnd text maxSize start = start + maxSize := by
  unfold chunkEnd
  rw [if_neg (not_lt.mpr he)]

theorem chunkStep_spec (text : List Char) (maxSize overlap start : Int)
    (h1 : 1 ≤ overlap) (h2 : overlap + 200 ≤ maxSize)
    (h3 : 0 ≤ start) (h4 : start < (text.length : Int)) :
    (∃ e2 : Int, start + overlap < e2 ∧ e2 < (text.length : Int) ∧
      chunkStep text maxSize overlap start =
        (pyStrip (sliceN text start.toNat e2.toNat), e2 - overlap)) ∨
    chunkStep text maxSize overlap start =
      (pyStrip (sliceN text start.toNat text.length), (text.length : Int)) := by
  by_cases he : start + maxSize < (text.length : Int)
  · left
    obtain ⟨hlow, hhigh⟩ := chunkEnd_bounds text maxSize start (by omega) h3 he
    refine ⟨chunkEnd text maxSize start, ?_, ?_, ?_⟩
    · have : start + maxSize - 200 ≤ max (start + maxSize - 200) start := le_max_left _ _
      omega
    · omega
    · unfold chunkStep
      dsimp only
      have hlt : chunkEnd text maxSize start < (text.length : Int) := by omega
      rw [if_pos hlt]
      have h0e : 0 ≤ chunkEnd text maxSize start := by
        have := le_max_right (start + maxSize - 200) start
        omega
      rw [pySlice_eq_sliceN text start (chunkEnd text maxSize start) h3 (le_of_lt h4) h0e]
      have : min (chunkEnd text maxSize start).toNat text.length =
          (chunkEnd text maxSize start).toNat := by omega
      rw [this]
  · right
    push_neg at he
    unfold chunkStep
    dsimp only
    rw [chunkEnd_of_ge text maxSize start he]
    rw [if_neg (not_lt.mpr he)]
    rw [pySlice_eq_sliceN text start (start + maxSize) h3 (le_of_lt h4) (by omega)]
    have : min (start + maxSize).toNat text.length = text.length := by omega
    rw [this]

theorem sliceN_append (text : List Char) (a b c : Nat) (hab : a ≤ b) (hbc : b ≤ c)
    (hc : c ≤ text.length) :
    sliceN text a b ++ sliceN text b c = sliceN text a c := by
  have htk : text.take b = (text.take c).take b := by
    rw [List.take_take, min_eq_left hbc]
  have hlen : ((text.take c).take b).length = b := by
    rw [List.length_take, List.length_take]
    omega
  unfold sliceN
  rw [htk]
  conv_rhs => rw [← List.take_append_drop b (text.take c)]
  rw [List.drop_append_eq_append_drop, hlen, Nat.sub_eq_zero_of_le hab, List.drop_zero]

theorem sliceN_drop (text : List Char) (a b k : Nat) :
    (sliceN text a b).drop k = sliceN text (a + k) b := by
  unfold sliceN
  rw [List.drop_drop, Nat.add_comm]

theorem sliceN_length (text : List Char) (a b : Nat) (hb : b ≤ text.length) :
    (sliceN text a b).length = b - a := by
  unfold sliceN
  rw [List.length_drop, List.length_take]
  omega

theorem sliceN_full (text : List Char) : sliceN text 0 text.length = text := by
  unfold sliceN
  rw [List.drop_zero, List.take_length]

theorem winChain_tail (text : List Char) (ov : Nat) :
    ∀ (s : Nat) (ws : List (Nat × Nat)), WinChain ov text.length s ws →
      ((ws.map (fun w => sliceN text w.1 w.2)).map (fun d => d.drop ov)).flatten =
        (sliceN text s text.length).drop ov := by
  intro s ws h
  induction h with
  | last s hs => simp
  | step s e ws hse hen hch ih =>
    simp only [List.map_cons, List.flatten_cons]
    rw [ih]
    nth_rewrite 2 [sliceN_drop]
    have hov : e - ov + ov = e := by omega
    rw [hov]
    have happ := sliceN_append text s e text.length (by omega) (le_of_lt hen) le_rfl
    rw [← happ, List.drop_append_eq_append_drop,
      sliceN_length text s e (le_of_lt hen),
      Nat.sub_eq_zero_of_le (by omega), List.drop_zero]

theorem winChain_join (text : List Char) (ov : Nat) (s : Nat) (ws : List (Nat × Nat))
    (h : WinChain ov text.length s ws) :
    overlapJoin ov (ws.map (fun w => sliceN text w.1 w.2)) = sliceN text s text.length := by
  cases h with
  | last s hs => simp [overlapJoin]
  | step s e ws hse hen hch =>
    simp only [List.map_cons, overlapJoin]
    rw [winChain_tail text ov _ ws hch, sliceN_drop]
    have hov : e - ov + ov = e := by omega
    rw [hov]
    exact sliceN_append text s e text.length (by omega) (le_of_lt hen) le_rfl

theorem chunkTextLoop_spec (text : List Char) (maxSize overlap : Int)
    (h1 : 1 ≤ overlap) (h2 : overlap + 200 ≤ maxSize) :
    ∀ (fuel : Nat) (start : Int) (acc : List (List Char)),
      0 ≤ start → start < (text.length : Int) →
      (text.length : Int) < start + fuel →
      ∃ ws, WinChain overlap.toNat text.length start.toNat ws ∧
        chunkTextLoop text maxSize overlap fuel start acc =
          some (acc ++ keepNonempty (ws.map (fun w => pyStrip (sliceN text w.1 w.2)))) := by
  intro fuel
  induction fuel with
  | zero =>
    intro start acc h3 h4 h5
    exfalso
    simp only [Nat.cast_zero, add_zero] at h5
    omega
  | succ fuel ih =>
    intro start acc h3 h4 h5
    simp only [chunkTextLoop, if_pos h4]
    rcases chunkStep_spec text maxSize overlap start h1 h2 h3 h4 with
      ⟨e2, he1, he2, hstep⟩ | hstep
    · rw [hstep]
      dsimp only
      have h3a : (0 : Int) ≤ e2 - overlap := by omega
      have h4a : e2 - overlap < (text.length : Int) := by omega
      have h5a : (text.length : Int) < (e2 - overlap) + fuel := by
        push_cast at h5 ⊢
        omega
      rcases ih (e2 - overlap)
          (if pyStrip (sliceN text start.toNat e2.toNat) = [] then acc
            else acc ++ [pyStrip (sliceN text start.toNat e2.toNat)])
          h3a h4a h5a with ⟨ws, hws, heq⟩
      refine ⟨(start.toNat, e2.toNat) :: ws, ?_, ?_⟩
      · refine WinChain.step _ _ _ (by omega) (by omega) ?_
        have hsub : e2.toNat - overlap.toNat = (e2 - overlap).toNat := by omega
        rw [hsub]
        exact hws
      · rw [heq]
        by_cases hc : pyStrip (sliceN text start.toNat e2.toNat) = [] <;>
          simp [keepNonempty, hc, List.append_assoc]
    · rw [hstep]
      dsimp only
      have hfuel : 0 < fuel := by
        push_cast at h5
        omega
      obtain ⟨f, rfl⟩ : ∃ f, fuel = f + 1 := ⟨fuel - 1, by omega⟩
      refine ⟨[(start.toNat, text.length)], WinChain.last _ (by omega), ?_⟩
      simp only [chunkTextLoop, lt_irrefl, if_false]
      by_cases hc : pyStrip (sliceN text start.toNat text.length) = [] <;>
        simp [keepNonempty, hc]

theorem dropWhile_dropWhile (p : Char → Bool) :
    ∀ l : List Char, (l.dropWhile p).dropWhile p = l.dropWhile p := by
  intro l
  induction l with
  | nil => rfl
  | cons a l ih =>
    by_cases h : p a <;> simp [List.dropWhile_cons, h, ih]

theorem dropWhile_len_le (p : Char → Bool) :
    ∀ l : List Char, (l.dropWhile p).length ≤ l.length := by
  intro l
  induction l with
  | nil => simp
  | cons a l ih =>
    by_cases h : p a
    · rw [List.dropWhile_cons_of_pos h]
      exact Nat.le_succ_of_le ih
    · rw [List.dropWhile_cons_of_neg (by simpa using h)]

theorem dropWhile_take (p : Char → Bool) :
    ∀ (l : List Char) (m : Nat), l.dropWhile p = l → (l.take m).dropWhile p = l.take m := by
  intro l m h
  cases l with
  | nil => simp
  | cons a l =>
    have hpa : p a = false := by
      by_cases hp : p a
      · exfalso
        rw [List.dropWhile_cons_of_pos hp] at h
        have hle := dropWhile_len_le p l
        rw [h] at hle
        simp at hle
      · exact Bool.eq_false_iff.mpr hp
    cases m with
    | zero => simp
    | succ m =>
      rw [List.take_succ_cons, List.dropWhile_cons_of_neg (by simp [hpa])]

theorem dropWhile_eq_drop (p : Char → Bool) :
    ∀ l : List Char, ∃ k, k ≤ l.length ∧ l.dropWhile p = l.drop k := by
  intro l
  induction l with
  | nil => exact ⟨0, by simp⟩
  | cons a l ih =>
    by_cases h : p a
    · rcases ih with ⟨k, hk, hdrop⟩
      exact ⟨k + 1, by simpa using hk, by simp [List.dropWhile_cons, h, hdrop]⟩
    · exact ⟨0, by simp, by simp [List.dropWhile_cons, h]⟩

theorem strip_is_take (p : Char → Bool) (t : List Char) :
    ∃ m, (t.reverse.dropWhile p).reverse = t.take m := by
  rcases dropWhile_eq_drop p t.reverse with ⟨k, hk, hdrop⟩
  refine ⟨t.length - k, ?_⟩
  rw [hdrop, ← List.rdrop_eq_reverse_drop_reverse, List.rdrop]

theorem pyStrip_idem (s : List Char) : pyStrip (pyStrip s) = pyStrip s := by
  unfold pyStrip
  obtain ⟨m, hm⟩ := strip_is_take Char.isWhitespace (s.dropWhile Char.isWhitespace)
  have hfc_u : ((((s.dropWhile Char.isWhitespace).reverse.dropWhile
      Char.isWhitespace).reverse).dropWhile Char.isWhitespace) =
      ((s.dropWhile Char.isWhitespace).reverse.dropWhile Char.isWhitespace).reverse := by
    rw [hm]
    exact dropWhile_take Char.isWhitespace _ m (dropWhile_dropWhile Char.isWhitespace s)
  rw [hfc_u, List.reverse_reverse, dropWhile_dropWhile]

theorem keepNonempty_mem :
    ∀ (l : List (List Char)) (x : List Char), x ∈ keepNonempty l → x ∈ l ∧ x ≠ [] := by
  intro l
  induction l with
  | nil => intro x hx; cases hx
  | cons c cs ih =>
    intro x hx
    by_cases hc : c = []
    · rw [keepNonempty, if_pos hc, List.nil_append] at hx
      rcases ih x hx with ⟨h1, h2⟩
      exact ⟨List.mem_cons_of_mem c h1, h2⟩
    · rw [keepNonempty, if_neg hc] at hx
      rcases List.mem_append.mp hx with h1 | h1
      · have hx2 : x = c := List.mem_singleton.mp h1
        subst hx2
        exact ⟨List.mem_cons_self x cs, hc⟩
      · rcases ih x h1 with ⟨h2, h3⟩
        exact ⟨List.mem_cons_of_mem c h2, h3⟩

theorem enumFrom_filterMap_content (doc : PyDoc) (total : Nat) :
    ∀ (tcs : List (List Char)) (k : Nat),
      (∀ c ∈ tcs, pyStrip c = c ∧ c ≠ []) →
      ((List.enumFrom k tcs).filterMap (fun ic =>
          if pyStrip ic.2 = [] then none
          else some (mkChunkDoc doc total ic))).map (fun c => c.content) = tcs := by
  intro tcs
  induction tcs with
  | nil => intro k h; rfl
  | cons c cs ih =>
    intro k h
    have hc := h c (List.mem_cons_self c cs)
    have hcs : ∀ x ∈ cs, pyStrip x = x ∧ x ≠ [] :=
      fun x hx => h x (List.mem_cons_of_mem c hx)
    have hne : ¬ pyStrip c = [] := by rw [hc.1]; exact hc.2
    simp only [List.enumFrom, List.filterMap_cons, hne, if_false, List.map_cons]
    rw [ih (k + 1) hcs]
    have hcontent : (mkChunkDoc doc total (k, c)).content = c := by
      simp [mkChunkDoc, hc.1]
    rw [hcontent]

/-- C2 (amended): when `max_size ≥ overlap + 200` — which holds for the
defaults `max_size = 1000`, `overlap = 200` — every iteration of the
`chunk_text` loop strictly increases `start` while keeping it at most
`len(text)`, and the loop terminates within `len(text) + 1` iterations;
the unamended claim fails for other positive parameters (see the
counterexample). -/
theorem c2_progress_and_termination :
    ∀ (text : List Char) (maxSize overlap start : Int),
      1 ≤ overlap → overlap + 200 ≤ maxSize →
      0 ≤ start → start < (text.length : Int) →
      (start < (chunkStep text maxSize overlap start).2 ∧
        (chunkStep text maxSize overlap start).2 ≤ (text.length : Int)) ∧
      (chunkTextLoop text maxSize overlap (text.length + 1) 0 []).isSome = true := by
  intro text maxSize overlap start h1 h2 h3 h4
  constructor
  · rcases chunkStep_spec text maxSize overlap start h1 h2 h3 h4 with
      ⟨e2, he1, he2, hstep⟩ | hstep
    · rw [hstep]
      dsimp only
      omega
    · rw [hstep]
      dsimp only
      omega
  · have h4b : (0 : Int) < (text.length : Int) := by omega
    have h5b : (text.length : Int) < 0 + ((text.length + 1 : Nat) : Int) := by
      push_cast
      omega
    rcases chunkTextLoop_spec text maxSize overlap h1 h2 (text.length + 1) 0 []
        (le_refl 0) h4b h5b with ⟨ws, hws, heq⟩
    rw [heq]
    rfl

set_option maxRecDepth 40000 in
theorem c2_progress_and_termination_witness :
    ((1 : Int) ≤ 1 ∧ (1 : Int) + 200 ≤ 201 ∧ (0 : Int) ≤ 0 ∧
      (0 : Int) < ((List.replicate 210 'x').length : Int)) ∧
    ((0 : Int) < (chunkStep (List.replicate 210 'x') 201 1 0).2 ∧
      (chunkStep (List.replicate 210 'x') 201 1 0).2 ≤
        ((List.replicate 210 'x').length : Int)) ∧
    (chunkTextLoop (List.replicate 210 'x') 201 1
      ((List.replicate 210 'x').length + 1) 0 []).isSome = true :=
  ⟨⟨by decide, by decide, by decide, by decide⟩,
    c2_progress_and_termination (List.replicate 210 'x') 201 1 0
      (by decide) (by decide) (by decide) (by decide)⟩

set_option maxRecDepth 40000 in
/-- C3 counterexample: with a document whose content begins with a
space (and parameters satisfying `max_size ≥ overlap + 200`),
concatenating the returned chunk contents with the overlap region
removed at each boundary does not reconstruct the content: the chunks
are whitespace-stripped, so the leading space is lost. -/
theorem c3_counterexample :
    (201 : Int) < (dLeadingSpace.content.length : Int) ∧
    overlapJoin 1 ((chunkDocuments [dLeadingSpace] 201 1).map (fun c => c.content)) ≠
      dLeadingSpace.content := by
  constructor
  · decide
  · decide

/-- C3 (amended): for `max_size ≥ overlap + 200` (the defaults
included) and an oversized document, the loop traverses a chain of
windows that tile the content with exactly `overlap` characters of
overlap, so concatenating the raw window slices with the overlap
removed at each boundary yields the content exactly; the returned
chunks are the whitespace-stripped window slices with empty ones
dropped (so reconstruction from the returned contents holds only up to
the stripped whitespace), and no returned chunk has empty content. -/
theorem c3_chunks_reconstruct :
    ∀ (d : PyDoc) (maxSize overlap : Int),
      1 ≤ overlap → overlap + 200 ≤ maxSize →
      maxSize < (d.content.length : Int) →
      ∃ ws : List (Nat × Nat),
        WinChain overlap.toNat d.content.length 0 ws ∧
        overlapJoin overlap.toNat (ws.map (fun w => sliceN d.content w.1 w.2)) =
          d.content ∧
        chunkText d.content maxSize overlap =
          keepNonempty (ws.map (fun w => pyStrip (sliceN d.content w.1 w.2))) ∧
        (chunkDocuments [d] maxSize overlap).map (fun c => c.content) =
          chunkText d.content maxSize overlap ∧
        ∀ c ∈ chunkDocuments [d] maxSize overlap, c.content ≠ [] := by
  intro d maxSize overlap h1 h2 hlen
  have h4 : (0 : Int) < (d.content.length : Int) := by omega
  have h5 : (d.content.length : Int) < 0 + ((d.content.length + 1 : Nat) : Int) := by
    push_cast
    omega
  rcases chunkTextLoop_spec d.content maxSize overlap h1 h2 (d.content.length + 1) 0 []
      (le_refl 0) h4 h5 with ⟨ws, hws, heq⟩
  have hws0 : WinChain overlap.toNat d.content.length 0 ws := by
    simpa using hws
  have hct : chunkText d.content maxSize overlap =
      keepNonempty (ws.map (fun w => pyStrip (sliceN d.content w.1 w.2))) := by
    unfold chunkText
    rw [if_neg (not_le.mpr hlen), heq]
    simp
  have hcd : chunkDocuments [d] maxSize overlap = chunkDocsOf d maxSize overlap := by
    simp [chunkDocuments, not_le.mpr hlen]
  have hmem : ∀ c ∈ chunkText d.content maxSize overlap, pyStrip c = c ∧ c ≠ [] := by
    intro c hc
    rw [hct] at hc
    rcases keepNonempty_mem _ c hc with ⟨hmem2, hne⟩
    rcases List.mem_map.mp hmem2 with ⟨w, hw, hcw⟩
    refine ⟨?_, hne⟩
    rw [← hcw]
    exact pyStrip_idem _
  refine ⟨ws, hws0, ?_, hct, ?_, ?_⟩
  · rw [winChain_join d.content overlap.toNat 0 ws hws0, sliceN_full]
  · rw [hcd]
    unfold chunkDocsOf
    dsimp only
    rw [List.enum]
    exact enumFrom_filterMap_content d (chunkText d.content maxSize overlap).length
      (chunkText d.content maxSize overlap) 0 hmem
  · intro c hc
    rw [hcd] at hc
    unfold chunkDocsOf at hc
    dsimp only at hc
    rcases List.mem_filterMap.mp hc with ⟨ic, hicmem, hfc⟩
    by_cases hstrip : pyStrip ic.2 = []
    · rw [if_pos hstrip] at hfc
      cases hfc
    · rw [if_neg hstrip] at hfc
      have hcc : mkChunkDoc d (chunkText d.content maxSize overlap).length ic = c :=
        Option.some.inj hfc
      rw [← hcc]
      simpa [mkChunkDoc] using hstrip

set_option maxRecDepth 40000 in
theorem c3_chunks_reconstruct_witness :
    ((1 : Int) ≤ 1 ∧ (1 : Int) + 200 ≤ 201 ∧
      (201 : Int) < (dLeadingSpace.content.length : Int)) ∧
    ∃ ws : List (Nat × Nat),
      WinChain (1 : Int).toNat dLeadingSpace.content.length 0 ws ∧
      overlapJoin (1 : Int).toNat
        (ws.map (fun w => sliceN dLeadingSpace.content w.1 w.2)) =
        dLeadingSpace.content ∧
      chunkText dLeadingSpace.content 201 1 =
        keepNonempty (ws.map (fun w => pyStrip (sliceN dLeadingSpace.content w.1 w.2))) ∧
      (chunkDocuments [dLeadingSpace] 201 1).map (fun c => c.content) =
        chunkText dLeadingSpace.content 201 1 ∧
      ∀ c ∈ chunkDocuments [dLeadingSpace] 201 1, c.content ≠ [] :=
  ⟨⟨by decide, by decide, by decide⟩,
    c3_chunks_reconstruct dLeadingSpace 201 1 (by decide) (by decide) (by decide)⟩
